import Mathlib

/-!
Verification of the LocalKeys core against its specification.

The definitions below are a shallow embedding of the JavaScript sources:
  - CryptoUtil.maskSensitiveValue   (src/modules/crypto)
  - Vault                           (src/modules/vault.js)
  - Logger.log                      (src/modules/logger.js)
  - HttpServer                      (src/modules/http-server.js)
  - showApprovalDialog              (src/main.js)

Node primitives that are external to the repository logic (PBKDF2, AES-256-GCM,
the filesystem and timers) are modelled explicitly: the cipher as an abstract
parameter structure, the two vault files and the count of completed document
writes as a Disk record, and timer or IPC callbacks as explicit events.
-/

namespace LocalKeys

/-! ## CryptoUtil.maskSensitiveValue

JS source: returns "***" when the value is falsy (empty string) or its length
is at most visibleChars; otherwise the first visibleChars characters followed
by one asterisk per remaining character. -/

def maskSensitiveValue (value : String) (visibleChars : Nat) : String :=
  if value.length = 0 || value.length ≤ visibleChars then
    "***"
  else
    let visible := String.mk (value.data.take visibleChars)
    let masked := String.mk (List.replicate (value.length - visibleChars) '*')
    visible ++ masked

/-! ## Abstract cipher

The repository calls node crypto (pbkdf2Sync, aes-256-gcm).  The vault logic
never inspects keys or blobs, so the primitives are passed in as an abstract
structure; decryptJson returns none exactly when JS decryptJson would throw. -/

structure CryptoModel (Doc : Type) where
  deriveKey : String → String → String
  encryptJson : Doc → String → String
  decryptJson : String → String → Option Doc

/-! ## Vault data model (vault.js)

JS objects are modelled as association lists that preserve insertion order;
assignment to an existing key replaces the value in place. -/

def lookupA {α : Type} (m : List (String × α)) (k : String) : Option α :=
  (m.find? (fun e => e.1 == k)).map Prod.snd

def insertA {α : Type} (m : List (String × α)) (k : String) (v : α) : List (String × α) :=
  match m with
  | [] => [(k, v)]
  | e :: rest => if e.1 == k then (k, v) :: rest else e :: insertA rest k v

structure Project where
  name : String
  createdAt : String
  updatedAt : String
  secrets : List (String × String)
deriving DecidableEq, Repr

structure VaultDoc where
  version : String
  createdAt : String
  updatedAt : String
  projects : List (String × Project)
deriving DecidableEq, Repr

structure ProjInfo where
  name : String
  secretCount : Nat
  createdAt : String
  updatedAt : String
deriving DecidableEq, Repr

/-- In-memory state of a Vault instance: isLocked, the decrypted document
(data), the derived key, and whether a debounced auto-save timer is pending. -/
structure VaultState where
  isLocked : Bool
  data : Option VaultDoc
  key : Option String
  saveTimeout : Bool
deriving DecidableEq, Repr

/-- On-disk state owned by the Vault: the salt file, the encrypted document
file, and a count of completed writes of the document file. -/
structure Disk where
  saltFile : Option String
  vaultFile : Option String
  writes : Nat
deriving DecidableEq, Repr

/-- Typed counterparts of the untyped JS Error messages thrown by Vault. -/
inductive VaultError where
  | alreadyExists
  | notFound
  | invalidPassword
  | locked
  | writeFailed
  | nullData
  | projectExists (name : String)
  | projectNotFound (name : String)
  | secretNotFound (project : String) (key : String)
deriving DecidableEq, Repr

/-- The message attached to each JS Error (the project and secret variants
wrap the offending name in single-quote characters in the JS source; the
quotes are left out here). -/
def errMessage : VaultError → String
  | .alreadyExists => "Vault already exists"
  | .notFound => "Vault does not exist"
  | .invalidPassword => "Invalid password"
  | .locked => "Vault is locked"
  | .writeFailed => "Write failed"
  | .nullData => "Vault data is null"
  | .projectExists n => "Project " ++ n ++ " already exists"
  | .projectNotFound n => "Project " ++ n ++ " does not exist"
  | .secretNotFound p k => "Secret " ++ k ++ " does not exist in project " ++ p

/-- Vault.exists: true iff both the document file and the salt file exist. -/
def vaultExists (d : Disk) : Bool :=
  d.vaultFile.isSome && d.saltFile.isSome

/-- Vault private save: no-op when data or key is null, otherwise encrypts the
document and writes the vault file; saveOk models whether the underlying
fs.writeFile call succeeds (a failed write creates no file). -/
def vaultSave (c : CryptoModel VaultDoc) (saveOk : Bool) (v : VaultState) (d : Disk) :
    Except VaultError Unit × Disk :=
  match v.data, v.key with
  | some doc, some key =>
    if saveOk then
      (Except.ok (), { d with vaultFile := some (c.encryptJson doc key), writes := d.writes + 1 })
    else
      (Except.error .writeFailed, d)
  | _, _ => (Except.ok (), d)

/-- Vault.setup: refuses when the vault exists; otherwise writes the salt file,
derives the key, builds the empty document, saves and unlocks.  When the save
fails the JS exception propagates with the salt file still written and the
in-memory key and data still set; no rollback is performed. -/
def vaultSetup (c : CryptoModel VaultDoc) (saveOk : Bool) (now salt password : String)
    (v : VaultState) (d : Disk) : Except VaultError Unit × VaultState × Disk :=
  if vaultExists d then
    (Except.error .alreadyExists, v, d)
  else
    let d1 : Disk := { d with saltFile := some salt }
    let key := c.deriveKey password salt
    let doc : VaultDoc := { version := "1.0.0", createdAt := now, updatedAt := now, projects := [] }
    let v1 : VaultState := { v with key := some key, data := some doc }
    match vaultSave c saveOk v1 d1 with
    | (Except.ok _, d2) => (Except.ok (), { v1 with isLocked := false }, d2)
    | (Except.error e, d2) => (Except.error e, v1, d2)

/-- Vault.unlock: requires the vault to exist, derives the key from the stored
salt before the try block, then decrypts; any decryption (or read) failure
discards both the key and the data and fails with the generic invalid-password
error, leaving isLocked unchanged. -/
def vaultUnlock (c : CryptoModel VaultDoc) (password : String) (v : VaultState) (d : Disk) :
    Except VaultError Unit × VaultState :=
  if !vaultExists d then
    (Except.error .notFound, v)
  else
    match d.saltFile with
    | none => (Except.error .notFound, v)
    | some saltHex =>
      let key := c.deriveKey password saltHex
      let v1 : VaultState := { v with key := some key }
      match d.vaultFile with
      | none => (Except.error .invalidPassword, { v1 with key := none, data := none })
      | some blob =>
        match c.decryptJson blob key with
        | some doc => (Except.ok (), { v1 with data := some doc, isLocked := false })
        | none => (Except.error .invalidPassword, { v1 with key := none, data := none })

/-- Vault.lock: no-op when already locked; otherwise cancels the pending
auto-save timer, flushes the document to disk and clears the key, the data and
the lock flag.  A failed flush propagates without clearing the memory. -/
def vaultLock (c : CryptoModel VaultDoc) (saveOk : Bool) (v : VaultState) (d : Disk) :
    Except VaultError Unit × VaultState × Disk :=
  if v.isLocked then
    (Except.ok (), v, d)
  else
    let v1 : VaultState := { v with saveTimeout := false }
    match vaultSave c saveOk v1 d with
    | (Except.ok _, d1) => (Except.ok (), { v1 with data := none, key := none, isLocked := true }, d1)
    | (Except.error e, d1) => (Except.error e, v1, d1)

/-- Vault private ensureUnlocked check. -/
def ensureUnlocked (v : VaultState) : Except VaultError Unit :=
  if v.isLocked then Except.error .locked else Except.ok ()

/-- Vault.getProjects. -/
def vaultGetProjects (v : VaultState) : Except VaultError (List ProjInfo) :=
  if v.isLocked then Except.error .locked
  else
    match v.data with
    | none => Except.error .nullData
    | some doc =>
      Except.ok (doc.projects.map (fun e =>
        { name := e.1, secretCount := e.2.secrets.length,
          createdAt := e.2.createdAt, updatedAt := e.2.updatedAt }))

/-- Vault.createProject: rejects a duplicate project name. -/
def vaultCreateProject (v : VaultState) (now name : String) :
    Except VaultError Unit × VaultState :=
  if v.isLocked then (Except.error .locked, v)
  else
    match v.data with
    | none => (Except.error .nullData, v)
    | some doc =>
      match lookupA doc.projects name with
      | some _ => (Except.error (.projectExists name), v)
      | none =>
        let proj : Project := { name := name, createdAt := now, updatedAt := now, secrets := [] }
        let doc1 : VaultDoc := { doc with projects := insertA doc.projects name proj, updatedAt := now }
        (Except.ok (), { v with data := some doc1, saveTimeout := true })

/-- Vault.getSecrets: a copy of the secrets object of an existing project. -/
def vaultGetSecrets (v : VaultState) (projectName : String) :
    Except VaultError (List (String × String)) :=
  if v.isLocked then Except.error .locked
  else
    match v.data with
    | none => Except.error .nullData
    | some doc =>
      match lookupA doc.projects projectName with
      | none => Except.error (.projectNotFound projectName)
      | some proj => Except.ok proj.secrets

/-- Vault.getSecret. -/
def vaultGetSecret (v : VaultState) (projectName key : String) :
    Except VaultError String :=
  if v.isLocked then Except.error .locked
  else
    match v.data with
    | none => Except.error .nullData
    | some doc =>
      match lookupA doc.projects projectName with
      | none => Except.error (.projectNotFound projectName)
      | some proj =>
        match lookupA proj.secrets key with
        | none => Except.error (.secretNotFound projectName key)
        | some value => Except.ok value

/-- Vault.setSecret: unconditional assignment into the secrets object of an
existing project (an existing key is overwritten), timestamps updated and an
auto-save scheduled. -/
def vaultSetSecret (v : VaultState) (now projectName key value : String) :
    Except VaultError Unit × VaultState :=
  if v.isLocked then (Except.error .locked, v)
  else
    match v.data with
    | none => (Except.error .nullData, v)
    | some doc =>
      match lookupA doc.projects projectName with
      | none => (Except.error (.projectNotFound projectName), v)
      | some proj =>
        let proj1 : Project := { proj with secrets := insertA proj.secrets key value, updatedAt := now }
        let doc1 : VaultDoc := { doc with projects := insertA doc.projects projectName proj1, updatedAt := now }
        (Except.ok (), { v with data := some doc1, saveTimeout := true })

/-! ## Logger.log (logger.js)

Each call masks the message, appends the entry to the stored list and, when
the list exceeds maxLogEntries, keeps only the trailing maxLogEntries entries
(slice with a negative index).  The concrete masking regexes live behind the
mask parameter; the claims about the log concern the pipeline, which is
independent of the masking function applied. -/

structure LogEntry where
  timestamp : String
  type : String
  message : String
deriving DecidableEq, Repr

structure LogCall where
  timestamp : String
  type : String
  message : String
deriving DecidableEq, Repr

def maxLogEntries : Nat := 1000

def loggerLog (mask : String → String) (timestamp type : String)
    (logs : List LogEntry) (message : String) : List LogEntry :=
  let entry : LogEntry := { timestamp := timestamp, type := type, message := mask message }
  let logs1 := logs ++ [entry]
  if maxLogEntries < logs1.length then logs1.drop (logs1.length - maxLogEntries) else logs1

/-- The stored log after a sequence of Logger.log calls starting from an empty
log file. -/
def runLogger (mask : String → String) (calls : List LogCall) : List LogEntry :=
  calls.foldl (fun logs c => loggerLog mask c.timestamp c.type logs c.message) []

/-- The entry a single call appends before the cap step. -/
def maskedEntry (mask : String → String) (c : LogCall) : LogEntry :=
  { timestamp := c.timestamp, type := c.type, message := mask c.message }

/-! ## HttpServer (http-server.js) -/

/-- Result shape of the approval callback and of the dialog promise. -/
structure ApprovalResult where
  approved : Bool
  reason : Option String
deriving DecidableEq, Repr

inductive Action where
  | listProjects
  | listSecretKeys (projectName : String)
  | getBatchSecrets (projectName : String) (keys : List String)
  | getSecret (projectName : String) (key : String)
  | setSecret (projectName : String) (key : String) (value : String)
  | status
  | unknown (name : String)
deriving DecidableEq, Repr

inductive RespData where
  | projects (l : List ProjInfo)
  | keys (l : List String)
  | secrets (m : List (String × String))
  | text (s : String)
  | statusInfo (isUnlocked : Bool) (version : String)
deriving DecidableEq, Repr

/-- JSON response body: success plus optional data and error fields. -/
structure ServerResult where
  success : Bool
  data : Option RespData
  error : Option String
deriving DecidableEq, Repr

structure HttpResponse where
  status : Nat
  body : Option ServerResult
deriving DecidableEq, Repr

/-- Counts of vault data operations and approval-callback invocations
performed while serving one request. -/
structure Effects where
  vaultCalls : Nat
  approvalCalls : Nat
deriving DecidableEq, Repr

/-- HttpServer.requestBatchApproval: fail closed without a callback, otherwise
delegate to the callback; the Nat records whether the callback ran. -/
def requestBatchApproval (cb : Option (String → List String → ApprovalResult))
    (projectName : String) (keys : List String) : ApprovalResult × Nat :=
  match cb with
  | none => ({ approved := false, reason := some "No approval handler available" }, 0)
  | some f => (f projectName keys, 1)

/-- HttpServer.authenticateRequest: 401 with "Authorization required" when the
header is missing or lacks the Bearer prefix, 401 with "Invalid token" when
the presented token differs from authToken; none means the check passed. -/
def authCheck (authToken : String) (authHeader : Option String) : Option HttpResponse :=
  match authHeader with
  | none =>
    some { status := 401,
           body := some { success := false, data := none, error := some "Authorization required" } }
  | some h =>
    if !h.startsWith "Bearer " then
      some { status := 401,
             body := some { success := false, data := none, error := some "Authorization required" } }
    else if h.drop 7 != authToken then
      some { status := 401,
             body := some { success := false, data := none, error := some "Invalid token" } }
    else
      none

/-- Loop body of the getBatchSecrets branch: each per-key vault read sits in
its own try/catch, so a missing key (or any other per-key failure) is skipped
while the read counter still advances. -/
def batchStep (v : VaultState) (p : String) (acc : List (String × String) × Nat)
    (key : String) : List (String × String) × Nat :=
  match vaultGetSecret v p key with
  | Except.ok value => (insertA acc.1 key value, acc.2 + 1)
  | Except.error _ => (acc.1, acc.2 + 1)

/-- HttpServer.handleAction: routes an action; each vault branch first checks
the cached isUnlocked flag, and the whole switch sits in a try/catch turning a
thrown vault error into a success:false body.  getBatchSecrets wraps each
per-key vault read in its own try/catch that ignores the failure. -/
def handleAction (isUnlocked : Bool) (cb : Option (String → List String → ApprovalResult))
    (v : VaultState) (now : String) (a : Action) : ServerResult × VaultState × Effects :=
  let lockedRes : ServerResult := { success := false, data := none, error := some "Vault is locked" }
  match a with
  | .listProjects =>
    if !isUnlocked then (lockedRes, v, ⟨0, 0⟩)
    else
      match vaultGetProjects v with
      | Except.ok l => ({ success := true, data := some (.projects l), error := none }, v, ⟨1, 0⟩)
      | Except.error e => ({ success := false, data := none, error := some (errMessage e) }, v, ⟨1, 0⟩)
  | .listSecretKeys p =>
    if !isUnlocked then (lockedRes, v, ⟨0, 0⟩)
    else
      match vaultGetSecrets v p with
      | Except.ok m => ({ success := true, data := some (.keys (m.map Prod.fst)), error := none }, v, ⟨1, 0⟩)
      | Except.error e => ({ success := false, data := none, error := some (errMessage e) }, v, ⟨1, 0⟩)
  | .getBatchSecrets p keys =>
    if !isUnlocked then (lockedRes, v, ⟨0, 0⟩)
    else
      let ar := requestBatchApproval cb p keys
      if ar.1.approved then
        let collected := keys.foldl (batchStep v p) ([], 0)
        ({ success := true, data := some (.secrets collected.1), error := none }, v,
          ⟨collected.2, ar.2⟩)
      else
        ({ success := false, data := none,
           error := some ("Access denied: " ++ ar.1.reason.getD "User denied") }, v, ⟨0, ar.2⟩)
  | .getSecret p key =>
    if !isUnlocked then (lockedRes, v, ⟨0, 0⟩)
    else
      let ar := requestBatchApproval cb p [key]
      if ar.1.approved then
        match vaultGetSecret v p key with
        | Except.ok value => ({ success := true, data := some (.text value), error := none }, v, ⟨1, ar.2⟩)
        | Except.error e => ({ success := false, data := none, error := some (errMessage e) }, v, ⟨1, ar.2⟩)
      else
        ({ success := false, data := none,
           error := some ("Access denied: " ++ ar.1.reason.getD "User denied") }, v, ⟨0, ar.2⟩)
  | .setSecret p key value =>
    if !isUnlocked then (lockedRes, v, ⟨0, 0⟩)
    else
      match vaultSetSecret v now p key value with
      | (Except.ok _, v1) => ({ success := true, data := none, error := none }, v1, ⟨1, 0⟩)
      | (Except.error e, v1) => ({ success := false, data := none, error := some (errMessage e) }, v1, ⟨1, 0⟩)
  | .status =>
    ({ success := true, data := some (.statusInfo isUnlocked "1.0.0"), error := none }, v, ⟨0, 0⟩)
  | .unknown _ =>
    ({ success := false, data := none, error := some "Unknown action" }, v, ⟨0, 0⟩)

/-- HttpServer.handleRequest: CORS headers, then OPTIONS short-circuits with
200, non-POST with 405, then authentication, then body parsing (none models a
JSON parse failure, surfacing as the 500 branch of the outer catch), then the
action dispatch answered with 200. -/
def handleRequest (authToken : String) (isUnlocked : Bool)
    (cb : Option (String → List String → ApprovalResult)) (v : VaultState) (now : String)
    (method : String) (authHeader : Option String) (body : Option Action) :
    HttpResponse × VaultState × Effects :=
  if method == "OPTIONS" then
    ({ status := 200, body := none }, v, ⟨0, 0⟩)
  else if method != "POST" then
    ({ status := 405,
       body := some { success := false, data := none, error := some "Method not allowed" } }, v, ⟨0, 0⟩)
  else
    match authCheck authToken authHeader with
    | some resp => (resp, v, ⟨0, 0⟩)
    | none =>
      match body with
      | none =>
        ({ status := 500,
           body := some { success := false, data := none, error := some "Invalid JSON" } }, v, ⟨0, 0⟩)
      | some a =>
        let r := handleAction isUnlocked cb v now a
        ({ status := 200, body := some r.1 }, r.2.1, r.2.2)

/-- Boolean form of the bad-credential condition of the claim: the header is
missing, lacks the Bearer prefix, or carries a mismatched token. -/
def authRejected (authToken : String) (authHeader : Option String) : Bool :=
  match authHeader with
  | none => true
  | some h => !h.startsWith "Bearer " || h.drop 7 != authToken

/-- Spec-side description of which 401 error text belongs to which failure
mode, taken from the words of the claim: missing or malformed header yields
Authorization required, a mismatched token yields Invalid token. -/
def specAuthError (authHeader : Option String) : String :=
  match authHeader with
  | none => "Authorization required"
  | some h => if !h.startsWith "Bearer " then "Authorization required" else "Invalid token"

/-! ## showApprovalDialog (main.js)

Each call to showApprovalDialog creates a closure with its own isResolved
flag, timeout and window; the shared mutable state between concurrent calls is
the single ipcMain listener table for the fixed channel
approval-response-simple: a new call removes all listeners on the channel and
installs its own once-listener.  The system state below carries one DialogReq
per outstanding or finished call, the owner of the channel listener, and the
id counter.  resolveCount counts how many times the promise resolve function
actually ran for the request. -/

structure DialogReq where
  reqId : Nat
  projectName : String
  key : String
  isResolved : Bool
  resolution : Option ApprovalResult
  resolveCount : Nat
  timeoutActive : Bool
  windowOpen : Bool
deriving DecidableEq, Repr

structure DialogSys where
  requests : List DialogReq
  listener : Option Nat
  nextId : Nat
deriving DecidableEq, Repr

def initDialogSys : DialogSys := { requests := [], listener := none, nextId := 0 }

def findReq (s : DialogSys) (id : Nat) : Option DialogReq :=
  s.requests.find? (fun r => r.reqId == id)

/-- The per-request effect of doResolve: mark resolved, clear the timer and
close the window (cleanup), record the result and count the resolution. -/
def resolveMark (result : ApprovalResult) (r : DialogReq) : DialogReq :=
  { r with isResolved := true, timeoutActive := false, windowOpen := false,
           resolution := some result, resolveCount := r.resolveCount + 1 }

def updateReq (s : DialogSys) (id : Nat) (f : DialogReq → DialogReq) : DialogSys :=
  { s with requests := s.requests.map (fun r => if r.reqId == id then f r else r) }

/-- doResolve of one dialog closure: a second resolution of the same request
is ignored via the isResolved guard; the close event fired by cleanup sees
isResolved already true and does nothing. -/
def doResolve (s : DialogSys) (id : Nat) (result : ApprovalResult) : DialogSys :=
  match findReq s id with
  | none => s
  | some r => if r.isResolved then s else updateReq s id (resolveMark result)

/-- Entry of showApprovalDialog in the non-headless case: a fresh closure and
window, removeAllListeners on the shared channel followed by ipcMain.once, so
the new request becomes the sole listener owner. -/
def startDialog (s : DialogSys) (projectName key : String) : DialogSys :=
  let r : DialogReq := { reqId := s.nextId, projectName := projectName, key := key,
                         isResolved := false, resolution := none, resolveCount := 0,
                         timeoutActive := true, windowOpen := true }
  { requests := s.requests ++ [r], listener := some s.nextId, nextId := s.nextId + 1 }

/-- A user decision arriving on the shared IPC channel: consumed by the only
registered once-listener, if any, and forwarded to that listener owner. -/
def ipcReply (s : DialogSys) (approved : Bool) : DialogSys :=
  match s.listener with
  | none => s
  | some id =>
    let s1 : DialogSys := { s with listener := none }
    if approved then doResolve s1 id { approved := true, reason := none }
    else doResolve s1 id { approved := false, reason := some "User denied" }

/-- The result carried by the timeout handler of showApprovalDialog. -/
def timeoutResult : ApprovalResult :=
  { approved := false, reason := some "Timeout after 30 seconds" }

/-- The 30-second timeout of one dialog firing (a cleared timer cannot fire,
hence the timeoutActive guard). -/
def timeoutFire (s : DialogSys) (id : Nat) : DialogSys :=
  match findReq s id with
  | none => s
  | some r =>
    if r.timeoutActive then doResolve s id timeoutResult else s

/-- The user closing the dialog window: the close handler resolves with Dialog
closed unless the request is already resolved. -/
def windowClose (s : DialogSys) (id : Nat) : DialogSys :=
  match findReq s id with
  | none => s
  | some r =>
    if r.windowOpen && !r.isResolved then
      doResolve s id { approved := false, reason := some "Dialog closed" }
    else s

inductive DialogEvent where
  | start (projectName key : String)
  | reply (approved : Bool)
  | timeout (id : Nat)
  | closeWin (id : Nat)
deriving DecidableEq, Repr

def dialogStep (s : DialogSys) (e : DialogEvent) : DialogSys :=
  match e with
  | .start p k => startDialog s p k
  | .reply approved => ipcReply s approved
  | .timeout id => timeoutFire s id
  | .closeWin id => windowClose s id

/-! ## Concrete fixtures used by witnesses and counterexamples -/

/-- A concrete cipher model whose decryption always fails. -/
def failCrypto : CryptoModel VaultDoc :=
  { deriveKey := fun p s => p ++ s,
    encryptJson := fun _ _ => "blob",
    decryptJson := fun _ _ => none }

def lockedVault : VaultState :=
  { isLocked := true, data := none, key := none, saveTimeout := false }

def sampleProject : Project :=
  { name := "myapp", createdAt := "t0", updatedAt := "t0", secrets := [("API_KEY", "old")] }

def sampleDoc : VaultDoc :=
  { version := "1.0.0", createdAt := "t0", updatedAt := "t0",
    projects := [("myapp", sampleProject)] }

def unlockedVault : VaultState :=
  { isLocked := false, data := some sampleDoc, key := some "k", saveTimeout := false }

def emptyDisk : Disk := { saltFile := none, vaultFile := none, writes := 0 }

/-- An approval callback that grants every request. -/
def approveAllCb : Option (String → List String → ApprovalResult) :=
  some (fun _ _ => { approved := true, reason := none })

/-- A response data field carries no secret value: it is absent, an empty
secrets object, or the status record; any project list, key list, secret map
with entries, or plain value would carry vault-derived content. -/
def noSecretData : Option RespData → Prop
  | none => True
  | some (.secrets m) => m = []
  | some (.text _) => False
  | some (.projects _) => False
  | some (.keys _) => False
  | some (.statusInfo _ _) => True

end LocalKeys

namespace LocalKeys

/-! ## Association list lemmas -/

theorem lookupA_cons {α : Type} (e : String × α) (m : List (String × α)) (k : String) :
    lookupA (e :: m) k = if e.1 == k then some e.2 else lookupA m k := by
  by_cases he : (e.1 == k) = true
  · simp [lookupA, List.find?_cons, he]
  · simp only [Bool.not_eq_true] at he
    simp [lookupA, List.find?_cons, he]

theorem lookupA_insertA_self {α : Type} (m : List (String × α)) (k : String) (v : α) :
    lookupA (insertA m k v) k = some v := by
  induction m with
  | nil => simp [insertA, lookupA]
  | cons e rest ih =>
    by_cases he : (e.1 == k) = true
    · simp [insertA, he, lookupA]
    · simp only [Bool.not_eq_true] at he
      rw [insertA, if_neg (by simp [he]), lookupA_cons, if_neg (by simp [he])]
      exact ih

/-! ## C6: maskSensitiveValue -/

/-- C6.  For every string value and every visibleChars, maskSensitiveValue
returns three asterisks when the value length is at most visibleChars, and
otherwise the first visibleChars characters followed by one asterisk per
remaining character, with the output length equal to the input length. -/
theorem mask_sensitive_value_spec (value : String) (visibleChars : Nat) :
    (value.length ≤ visibleChars → maskSensitiveValue value visibleChars = "***") ∧
    (visibleChars < value.length →
      maskSensitiveValue value visibleChars =
        String.mk (value.data.take visibleChars ++
          List.replicate (value.length - visibleChars) '*') ∧
      (maskSensitiveValue value visibleChars).length = value.length) := by
  constructor
  · intro h
    simp [maskSensitiveValue, h]
  · intro h
    have h0 : ¬ value.length = 0 := by omega
    have h1 : ¬ value.length ≤ visibleChars := by omega
    have hmask : maskSensitiveValue value visibleChars =
        String.mk (value.data.take visibleChars ++
          List.replicate (value.length - visibleChars) '*') := by
      simp only [maskSensitiveValue, h0, h1, decide_False, Bool.false_or, if_false]
      rfl
    refine ⟨hmask, ?_⟩
    rw [hmask]
    have hdata : value.data.length = value.length := rfl
    simp only [String.mk_length, List.length_append, List.length_take, List.length_replicate]
    omega

/-- Witness for C6 at concrete inputs, covering both branches. -/
theorem mask_sensitive_value_spec_witness :
    maskSensitiveValue "ab" 3 = "***" ∧ (maskSensitiveValue "abcde" 3).length = "abcde".length :=
  ⟨(mask_sensitive_value_spec "ab" 3).1 (by decide),
   ((mask_sensitive_value_spec "abcde" 3).2 (by decide)).2⟩

/-! ## C10: setSecret upsert vs createProject duplicate rejection -/

/-- C10.  On an unlocked vault with an existing project, setSecret succeeds
even when the key is already present, replacing the stored value (upsert), and
never fails with a duplicate error; createProject on the same existing name
fails with the duplicate-project error. -/
theorem set_secret_upsert (v : VaultState) (now p k newVal oldVal : String)
    (doc : VaultDoc) (proj : Project)
    (hL : v.isLocked = false) (hd : v.data = some doc)
    (hp : lookupA doc.projects p = some proj)
    (hk : lookupA proj.secrets k = some oldVal) :
    (vaultSetSecret v now p k newVal).1 = Except.ok () ∧
    (∃ doc1 proj1, (vaultSetSecret v now p k newVal).2.data = some doc1 ∧
      lookupA doc1.projects p = some proj1 ∧
      lookupA proj1.secrets k = some newVal) ∧
    (vaultCreateProject v now p).1 = Except.error (.projectExists p) := by
  refine ⟨?_, ?_, ?_⟩
  · simp [vaultSetSecret, hL, hd, hp]
  · refine ⟨{ doc with
        projects := insertA doc.projects p
          ({ proj with secrets := insertA proj.secrets k newVal, updatedAt := now }),
        updatedAt := now },
      ({ proj with secrets := insertA proj.secrets k newVal, updatedAt := now }), ?_, ?_, ?_⟩
    · simp [vaultSetSecret, hL, hd, hp]
    · exact lookupA_insertA_self _ _ _
    · exact lookupA_insertA_self _ _ _
  · simp [vaultCreateProject, hL, hd, hp]

/-- Witness for C10 on the sample vault, whose project myapp already stores a
value under API_KEY. -/
theorem set_secret_upsert_witness :
    (vaultSetSecret unlockedVault "t1" "myapp" "API_KEY" "new").1 = Except.ok () ∧
    (∃ doc1 proj1, (vaultSetSecret unlockedVault "t1" "myapp" "API_KEY" "new").2.data = some doc1 ∧
      lookupA doc1.projects "myapp" = some proj1 ∧
      lookupA proj1.secrets "API_KEY" = some "new") ∧
    (vaultCreateProject unlockedVault "t1" "myapp").1 = Except.error (.projectExists "myapp") :=
  set_secret_upsert unlockedVault "t1" "myapp" "API_KEY" "new" "old" sampleDoc sampleProject
    rfl rfl (by decide) (by decide)

/-! ## C3: unlock with a wrong password -/

/-- C3.  On an existing vault in the Locked state, whenever decryption of the
persisted blob under the derived key fails, unlock fails with the one generic
invalid-password error and leaves the vault locked with no key and no
document in memory. -/
theorem unlock_wrong_password (c : CryptoModel VaultDoc) (password saltHex blob : String)
    (v : VaultState) (d : Disk)
    (hL : v.isLocked = true) (hs : d.saltFile = some saltHex) (hb : d.vaultFile = some blob)
    (hdec : c.decryptJson blob (c.deriveKey password saltHex) = none) :
    (vaultUnlock c password v d).1 = Except.error .invalidPassword ∧
    (vaultUnlock c password v d).2.key = none ∧
    (vaultUnlock c password v d).2.data = none ∧
    (vaultUnlock c password v d).2.isLocked = true := by
  have hex : vaultExists d = true := by simp [vaultExists, hs, hb]
  simp [vaultUnlock, hex, hs, hb, hdec, hL]

/-- Witness for C3: a locked vault over a disk whose blob never decrypts. -/
theorem unlock_wrong_password_witness :
    (vaultUnlock failCrypto "pw2" lockedVault ⟨some "salted", some "blob", 0⟩).1 =
      Except.error .invalidPassword ∧
    (vaultUnlock failCrypto "pw2" lockedVault ⟨some "salted", some "blob", 0⟩).2.key = none ∧
    (vaultUnlock failCrypto "pw2" lockedVault ⟨some "salted", some "blob", 0⟩).2.data = none ∧
    (vaultUnlock failCrypto "pw2" lockedVault ⟨some "salted", some "blob", 0⟩).2.isLocked = true :=
  unlock_wrong_password failCrypto "pw2" "salted" "blob" lockedVault ⟨some "salted", some "blob", 0⟩
    rfl rfl rfl rfl

/-! ## C4: setup with a failing document save -/

/-- C4 counterexample.  The claim says a failed document save rolls the salt
write back (the salt file is removed).  Running setup on a fresh vault with a
failing save leaves the salt file present: vaultSetup performs no rollback. -/
theorem setup_salt_not_removed :
    (vaultSetup failCrypto false "t0" "saltA" "pw" lockedVault emptyDisk).1 =
      Except.error .writeFailed ∧
    (vaultSetup failCrypto false "t0" "saltA" "pw" lockedVault emptyDisk).2.2.saltFile =
      some "saltA" ∧
    (vaultSetup failCrypto false "t0" "saltA" "pw" lockedVault emptyDisk).2.2.saltFile ≠ none := by
  refine ⟨rfl, rfl, ?_⟩
  decide

/-- C4 amended.  When setup runs against a disk with no document file and the
document save fails, the salt file is not removed (it remains written), but
the partial state still does not satisfy exists, because exists requires both
files and the document file is absent. -/
theorem setup_failed_save_not_exists (c : CryptoModel VaultDoc) (now salt password : String)
    (v : VaultState) (d : Disk) (hv : d.vaultFile = none) :
    (vaultSetup c false now salt password v d).1 = Except.error .writeFailed ∧
    (vaultSetup c false now salt password v d).2.2.saltFile = some salt ∧
    vaultExists (vaultSetup c false now salt password v d).2.2 = false := by
  have hex : vaultExists d = false := by simp [vaultExists, hv]
  refine ⟨?_, ?_, ?_⟩ <;>
    simp [vaultSetup, hex, vaultSave, vaultExists, hv]

/-- Witness for the amended C4 on a fresh disk. -/
theorem setup_failed_save_not_exists_witness :
    (vaultSetup failCrypto false "t0" "saltA" "pw" lockedVault emptyDisk).1 =
      Except.error .writeFailed ∧
    (vaultSetup failCrypto false "t0" "saltA" "pw" lockedVault emptyDisk).2.2.saltFile =
      some "saltA" ∧
    vaultExists (vaultSetup failCrypto false "t0" "saltA" "pw" lockedVault emptyDisk).2.2 = false :=
  setup_failed_save_not_exists failCrypto "t0" "saltA" "pw" lockedVault emptyDisk rfl

/-! ## C8: idempotent lock -/

/-- C8.  From the Unlocked state, the first lock call flushes the document
exactly once (one disk write), discards key and document and transitions to
Locked; the immediately following second call is a no-op that performs no
further write and leaves every component of the state unchanged. -/
theorem lock_twice_persists_once (c : CryptoModel VaultDoc) (v : VaultState) (d : Disk)
    (doc : VaultDoc) (k : String)
    (hL : v.isLocked = false) (hd : v.data = some doc) (hk : v.key = some k) :
    vaultLock c true v d =
      (Except.ok (), ⟨true, none, none, false⟩,
        ⟨d.saltFile, some (c.encryptJson doc k), d.writes + 1⟩) ∧
    vaultLock c true (⟨true, none, none, false⟩ : VaultState)
        (⟨d.saltFile, some (c.encryptJson doc k), d.writes + 1⟩ : Disk) =
      (Except.ok (), ⟨true, none, none, false⟩,
        ⟨d.saltFile, some (c.encryptJson doc k), d.writes + 1⟩) := by
  constructor
  · simp [vaultLock, hL, vaultSave, hd, hk]
  · simp [vaultLock]

/-- Witness for C8 on the sample unlocked vault. -/
theorem lock_twice_persists_once_witness :
    vaultLock failCrypto true unlockedVault emptyDisk =
      (Except.ok (), ⟨true, none, none, false⟩,
        ⟨emptyDisk.saltFile, some (failCrypto.encryptJson sampleDoc "k"), emptyDisk.writes + 1⟩) ∧
    vaultLock failCrypto true (⟨true, none, none, false⟩ : VaultState)
        (⟨emptyDisk.saltFile, some (failCrypto.encryptJson sampleDoc "k"),
          emptyDisk.writes + 1⟩ : Disk) =
      (Except.ok (), ⟨true, none, none, false⟩,
        ⟨emptyDisk.saltFile, some (failCrypto.encryptJson sampleDoc "k"),
          emptyDisk.writes + 1⟩) :=
  lock_twice_persists_once failCrypto unlockedVault emptyDisk sampleDoc "k" rfl rfl rfl

/-! ## C7: log masking, cap and FIFO eviction -/

theorem loggerLog_eq_drop (mask : String → String) (ts ty msg : String) (logs : List LogEntry) :
    loggerLog mask ts ty logs msg =
      (logs ++ [maskedEntry mask ⟨ts, ty, msg⟩]).drop ((logs.length + 1) - maxLogEntries) := by
  simp only [loggerLog, maskedEntry, List.length_append, List.length_singleton]
  by_cases h : maxLogEntries < logs.length + 1
  · simp [h]
  · have h0 : logs.length + 1 - maxLogEntries = 0 := by omega
    simp [h, h0]

set_option maxRecDepth 4000 in
theorem runLogger_aux (mask : String → String) (calls : List LogCall) :
    ∀ logs : List LogEntry, logs.length ≤ maxLogEntries →
      calls.foldl (fun logs c => loggerLog mask c.timestamp c.type logs c.message) logs =
        (logs ++ calls.map (maskedEntry mask)).drop
          ((logs.length + calls.length) - maxLogEntries) := by
  induction calls with
  | nil =>
    intro logs h
    have h0 : logs.length - maxLogEntries = 0 := by omega
    simp [h0]
  | cons c cs ih =>
    intro logs h
    rw [List.foldl_cons, loggerLog_eq_drop]
    have hlen : ((logs ++ [maskedEntry mask ⟨c.timestamp, c.type, c.message⟩]).drop
        ((logs.length + 1) - maxLogEntries)).length ≤ maxLogEntries := by
      simp only [List.length_drop, List.length_append, List.length_singleton]
      omega
    rw [ih _ hlen]
    have hle : (logs.length + 1) - maxLogEntries ≤
        (logs ++ [maskedEntry mask ⟨c.timestamp, c.type, c.message⟩]).length := by
      simp only [List.length_append, List.length_singleton]
      omega
    rw [← List.drop_append_of_le_length hle, List.drop_drop]
    have hshape : (logs ++ [maskedEntry mask ⟨c.timestamp, c.type, c.message⟩]) ++
        cs.map (maskedEntry mask) = logs ++ (c :: cs).map (maskedEntry mask) := by
      simp [maskedEntry]
    rw [hshape]
    refine congrFun (congrArg List.drop ?_) _
    have e1 : (List.drop (logs.length + 1 - maxLogEntries)
        (logs ++ [maskedEntry mask ⟨c.timestamp, c.type, c.message⟩])).length
        = (logs ++ [maskedEntry mask ⟨c.timestamp, c.type, c.message⟩]).length
          - (logs.length + 1 - maxLogEntries) := List.length_drop _ _
    have e2 : (logs ++ [maskedEntry mask ⟨c.timestamp, c.type, c.message⟩]).length
        = logs.length + 1 := by
      simp
    simp only [List.length_cons, List.length_nil] at e1 e2 ⊢
    omega

/-- C7.  For every masking function and every sequence of log calls starting
from an empty log, the stored log is exactly the most recent
maxLogEntries-suffix, in append order, of the masked entries of the whole call
sequence (masking applied per call, before the cap step), and its length never
exceeds maxLogEntries (1000). -/
theorem logger_cap_fifo (mask : String → String) (calls : List LogCall) :
    runLogger mask calls =
      (calls.map (maskedEntry mask)).drop (calls.length - maxLogEntries) ∧
    (runLogger mask calls).length ≤ maxLogEntries := by
  have h := runLogger_aux mask calls [] (by simp [maxLogEntries])
  simp only [List.length_nil, List.nil_append, Nat.zero_add] at h
  refine ⟨h, ?_⟩
  rw [runLogger, h]
  simp only [List.length_drop, List.length_map]
  omega

/-! ## C2: authentication boundary -/

/-- C2 counterexample.  A GET request with a missing Authorization header is
answered with HTTP 405, not 401: in handleRequest the method check runs
before authentication, so the claim quantified over every HTTP request fails
for non-POST requests. -/
theorem auth_get_answered_405 :
    (handleRequest "tok" true none lockedVault "t0" "GET" none none).1 =
      { status := 405,
        body := some { success := false, data := none, error := some "Method not allowed" } } ∧
    (handleRequest "tok" true none lockedVault "t0" "GET" none none).1.status ≠ 401 := by
  exact ⟨rfl, by decide⟩

theorem authCheck_of_rejected (tok : String) (h : Option String)
    (hr : authRejected tok h = true) :
    authCheck tok h =
      some { status := 401,
             body := some { success := false, data := none, error := some (specAuthError h) } } := by
  cases h with
  | none => rfl
  | some s =>
    cases hp : s.startsWith "Bearer " with
    | false => simp [authCheck, specAuthError, hp]
    | true =>
      have hm : (s.drop 7 != tok) = true := by
        simpa [authRejected, hp] using hr
      simp [authCheck, specAuthError, hp, hm]

/-- C2 amended.  For every POST request whose Authorization header is missing,
lacks the Bearer prefix, or carries a mismatched token, the answer is HTTP 401
with success false and the error text of the claim (Authorization required for
a missing or malformed header, Invalid token for a mismatch); and for every
method, such a request invokes no vault operation and no approval request and
leaves the vault untouched.  Non-POST requests are answered before the
authentication check (OPTIONS with 200, others with 405). -/
theorem auth_boundary (authToken : String) (isUnlocked : Bool)
    (cb : Option (String → List String → ApprovalResult)) (v : VaultState) (now : String)
    (authHeader : Option String) (body : Option Action)
    (h : authRejected authToken authHeader = true) :
    (handleRequest authToken isUnlocked cb v now "POST" authHeader body).1 =
      { status := 401,
        body := some { success := false, data := none,
                       error := some (specAuthError authHeader) } } ∧
    (∀ method : String,
      (handleRequest authToken isUnlocked cb v now method authHeader body).2.1 = v ∧
      (handleRequest authToken isUnlocked cb v now method authHeader body).2.2 = ⟨0, 0⟩) := by
  have hac := authCheck_of_rejected authToken authHeader h
  constructor
  · simp [handleRequest, hac]
  · intro method
    by_cases hOpt : (method == "OPTIONS") = true
    · simp [handleRequest, hOpt]
    · by_cases hPost : (method != "POST") = true
      · simp [handleRequest, hOpt, hPost]
      · simp [handleRequest, hOpt, hPost, hac]

/-- Witness for the amended C2: a POST request with no Authorization header. -/
theorem auth_boundary_witness :
    (handleRequest "tok" true none lockedVault "t0" "POST" none none).1 =
      { status := 401,
        body := some { success := false, data := none,
                       error := some (specAuthError none) } } ∧
    (∀ method : String,
      (handleRequest "tok" true none lockedVault "t0" method none none).2.1 = lockedVault ∧
      (handleRequest "tok" true none lockedVault "t0" method none none).2.2 = ⟨0, 0⟩) :=
  auth_boundary "tok" true none lockedVault "t0" none none (by decide)

/-! ## C9: locked vault behind a stale isUnlocked flag -/

/-- C9 counterexample.  With the cached isUnlocked flag stale at true, the
vault actually locked, and an approving callback, getBatchSecrets does not
convert the thrown vault-locked error into a success:false response: the
per-key try/catch swallows it and the response is success:true with an empty
secrets object. -/
theorem batch_stale_flag_success :
    handleAction true approveAllCb lockedVault "t0" (.getBatchSecrets "myapp" ["API_KEY"]) =
      ({ success := true, data := some (.secrets []), error := none }, lockedVault, ⟨1, 1⟩) ∧
    (handleAction true approveAllCb lockedVault "t0"
        (.getBatchSecrets "myapp" ["API_KEY"])).1.success ≠ false := by
  exact ⟨rfl, by decide⟩

theorem batch_collect_locked (v : VaultState) (p : String) (hL : v.isLocked = true)
    (keys : List String) :
    ∀ acc : List (String × String) × Nat, (keys.foldl (batchStep v p) acc).1 = acc.1 := by
  induction keys with
  | nil => intro acc; rfl
  | cons k ks ih =>
    intro acc
    rw [List.foldl_cons]
    have hstep : batchStep v p acc k = (acc.1, acc.2 + 1) := by
      simp [batchStep, vaultGetSecret, hL]
    rw [hstep, ih]

/-- C9 amended.  For every action handled while the underlying vault is
actually Locked (however the cached isUnlocked flag is set), the vault state
is unchanged and the response carries no secret value; listProjects,
listSecretKeys, getSecret and setSecret answer success:false with an error,
while getBatchSecrets with an approving callback swallows the per-key
vault-locked errors and answers success:true with an empty secrets object. -/
theorem locked_vault_no_secret (isUnlocked : Bool)
    (cb : Option (String → List String → ApprovalResult)) (v : VaultState) (now : String)
    (a : Action) (h : v.isLocked = true) :
    (handleAction isUnlocked cb v now a).2.1 = v ∧
    noSecretData (handleAction isUnlocked cb v now a).1.data ∧
    ((a = .listProjects ∨ (∃ p, a = .listSecretKeys p) ∨ (∃ p k, a = .getSecret p k) ∨
        (∃ p k val, a = .setSecret p k val)) →
      (handleAction isUnlocked cb v now a).1.success = false ∧
      (handleAction isUnlocked cb v now a).1.error.isSome = true) := by
  cases a with
  | listProjects =>
    cases isUnlocked <;> simp [handleAction, vaultGetProjects, h, noSecretData]
  | listSecretKeys p =>
    cases isUnlocked <;> simp [handleAction, vaultGetSecrets, h, noSecretData]
  | getBatchSecrets p keys =>
    cases isUnlocked with
    | false => simp [handleAction, noSecretData]
    | true =>
      cases cb with
      | none => simp [handleAction, requestBatchApproval, noSecretData]
      | some f =>
        by_cases hap : (f p keys).approved = true
        · have hfold := batch_collect_locked v p h keys ([], 0)
          simp [handleAction, requestBatchApproval, hap, noSecretData, hfold]
        · simp [handleAction, requestBatchApproval, hap, noSecretData]
  | getSecret p k =>
    cases isUnlocked with
    | false => simp [handleAction, noSecretData]
    | true =>
      cases cb with
      | none => simp [handleAction, requestBatchApproval, noSecretData]
      | some f =>
        by_cases hap : (f p [k]).approved = true
        · simp [handleAction, requestBatchApproval, hap, vaultGetSecret, h, noSecretData]
        · simp [handleAction, requestBatchApproval, hap, noSecretData]
  | setSecret p k val =>
    cases isUnlocked <;> simp [handleAction, vaultSetSecret, h, noSecretData]
  | status =>
    cases isUnlocked <;> simp [handleAction, noSecretData]
  | unknown n =>
    cases isUnlocked <;> simp [handleAction, noSecretData]

/-- Witness for the amended C9: a getSecret action against a locked vault
behind a stale unlocked flag with an approving callback. -/
theorem locked_vault_no_secret_witness :
    (handleAction true approveAllCb lockedVault "t0" (.getSecret "myapp" "API_KEY")).2.1 =
      lockedVault ∧
    noSecretData (handleAction true approveAllCb lockedVault "t0"
      (.getSecret "myapp" "API_KEY")).1.data ∧
    ((Action.getSecret "myapp" "API_KEY" = .listProjects ∨
        (∃ p, Action.getSecret "myapp" "API_KEY" = .listSecretKeys p) ∨
        (∃ p k, Action.getSecret "myapp" "API_KEY" = .getSecret p k) ∨
        (∃ p k val, Action.getSecret "myapp" "API_KEY" = .setSecret p k val)) →
      (handleAction true approveAllCb lockedVault "t0"
        (.getSecret "myapp" "API_KEY")).1.success = false ∧
      (handleAction true approveAllCb lockedVault "t0"
        (.getSecret "myapp" "API_KEY")).1.error.isSome = true) :=
  locked_vault_no_secret true approveAllCb lockedVault "t0" (.getSecret "myapp" "API_KEY") rfl

/-! ## Dialog system lemmas for C1 and C5 -/

theorem find_map_preserve (l : List DialogReq) (j id : Nat) (f : DialogReq → DialogReq)
    (hf : ∀ r, (f r).reqId = r.reqId) (hne : j ≠ id) :
    (l.map (fun r => if r.reqId == j then f r else r)).find? (fun r => r.reqId == id) =
      l.find? (fun r => r.reqId == id) := by
  induction l with
  | nil => rfl
  | cons a rest ih =>
    simp only [List.map_cons]
    by_cases hj : (a.reqId == j) = true
    · have haj : a.reqId = j := by simpa using hj
      have h1 : ¬ ((f a).reqId == id) = true := by
        simp only [hf a, haj, beq_iff_eq]
        exact hne
      have h2 : ¬ (a.reqId == id) = true := by
        simp only [haj, beq_iff_eq]
        exact hne
      rw [if_pos hj]
      rw [List.find?_cons_of_neg, List.find?_cons_of_neg]
      · exact ih
      · exact h2
      · exact h1
    · rw [if_neg hj]
      by_cases hi : (a.reqId == id) = true
      · rw [List.find?_cons_of_pos, List.find?_cons_of_pos]
        · exact hi
        · exact hi
      · rw [List.find?_cons_of_neg, List.find?_cons_of_neg]
        · exact ih
        · exact hi
        · exact hi

theorem map_resolve_of_find_none (l : List DialogReq) (id : Nat) (f : DialogReq → DialogReq)
    (h : l.find? (fun r => r.reqId == id) = none) :
    l.map (fun r => if r.reqId == id then f r else r) = l := by
  induction l with
  | nil => rfl
  | cons a rest ih =>
    rw [List.find?_eq_none] at h
    have ha : ¬ (a.reqId == id) = true := h a (by simp)
    simp only [List.map_cons, if_neg ha]
    congr 1
    apply ih
    rw [List.find?_eq_none]
    intro x hx
    exact h x (by simp [hx])

theorem findReq_doResolve_of_resolved (s : DialogSys) (id j : Nat) (r : DialogReq)
    (res : ApprovalResult) (h : findReq s id = some r) (hr : r.isResolved = true) :
    findReq (doResolve s j res) id = some r := by
  cases hj : findReq s j with
  | none => simpa [doResolve, hj] using h
  | some rj =>
    by_cases hrj : rj.isResolved = true
    · simpa [doResolve, hj, hrj] using h
    · have hne : j ≠ id := by
        intro e
        subst e
        rw [h] at hj
        cases hj
        exact hrj hr
      simp only [doResolve, hj]
      rw [if_neg hrj]
      simp only [updateReq, findReq] at h ⊢
      rw [find_map_preserve s.requests j id (resolveMark res) (fun _ => rfl) hne]
      exact h

theorem findReq_step_of_resolved (s : DialogSys) (id : Nat) (r : DialogReq) (e : DialogEvent)
    (h : findReq s id = some r) (hr : r.isResolved = true) :
    findReq (dialogStep s e) id = some r := by
  cases e with
  | start p k =>
    simp only [dialogStep, startDialog, findReq] at h ⊢
    rw [List.find?_append, h]
    rfl
  | reply approved =>
    simp only [dialogStep, ipcReply]
    cases hl : s.listener with
    | none => exact h
    | some j =>
      have h2 : findReq { s with listener := none } id = some r := h
      cases approved
      · simp only []
        exact findReq_doResolve_of_resolved _ id j r _ h2 hr
      · simp only []
        exact findReq_doResolve_of_resolved _ id j r _ h2 hr
  | timeout j =>
    simp only [dialogStep, timeoutFire]
    cases hj : findReq s j with
    | none => exact h
    | some rj =>
      by_cases ht : rj.timeoutActive = true
      · simp only [ht, if_true]
        exact findReq_doResolve_of_resolved s id j r _ h hr
      · simp only [ht, if_false]
        exact h
  | closeWin j =>
    simp only [dialogStep, windowClose]
    cases hj : findReq s j with
    | none => exact h
    | some rj =>
      by_cases ht : (rj.windowOpen && !rj.isResolved) = true
      · simp only [ht, if_true]
        exact findReq_doResolve_of_resolved s id j r _ h hr
      · simp only [ht, if_false]
        exact h

theorem timeoutFire_eq (s : DialogSys) (id : Nat) (r : DialogReq)
    (h : findReq s id = some r) (ht : r.timeoutActive = true) :
    timeoutFire s id = doResolve s id timeoutResult := by
  unfold timeoutFire
  rw [h]
  simp [ht]

theorem doResolve_unresolved_eq (s : DialogSys) (id : Nat) (r : DialogReq)
    (res : ApprovalResult) (h : findReq s id = some r) (hr : r.isResolved = false) :
    doResolve s id res = updateReq s id (resolveMark res) := by
  unfold doResolve
  rw [h]
  simp [hr]

theorem findReq_update_append (pre : List DialogReq) (r0 : DialogReq) (id : Nat)
    (f : DialogReq → DialogReq) (lst : Option Nat) (nid : Nat)
    (hfresh : pre.find? (fun r => r.reqId == id) = none)
    (hr0 : (r0.reqId == id) = true) (hfr : ((f r0).reqId == id) = true) :
    findReq (updateReq { requests := pre ++ [r0], listener := lst, nextId := nid } id f) id =
      some (f r0) := by
  simp only [updateReq, findReq, List.map_append]
  rw [map_resolve_of_find_none pre id f hfresh, List.find?_append, hfresh]
  simp only [List.map_cons, List.map_nil]
  rw [if_pos hr0, List.find?_cons_of_pos]
  · rfl
  · exact hfr

theorem findReq_foldl_of_resolved (evs : List DialogEvent) :
    ∀ (s : DialogSys) (id : Nat) (r : DialogReq), findReq s id = some r →
      r.isResolved = true → findReq (evs.foldl dialogStep s) id = some r := by
  induction evs with
  | nil =>
    intro s id r h _
    exact h
  | cons e es ih =>
    intro s id r h hr
    rw [List.foldl_cons]
    exact ih _ id r (findReq_step_of_resolved s id r e h hr) hr

/-! ## C5: timeout resolution is unique and final -/

/-- C5.  Start a dialog request in any system state whose next id is unused
and let its 30-second timeout fire with no prior decision: the request is
resolved exactly once (resolveCount 1) with approved false and reason Timeout
after 30 seconds, and this resolution survives every possible sequence of
later events (IPC replies, window closes, further timeouts, new requests). -/
theorem approval_timeout_resolves_once (s : DialogSys) (p k : String) (evs : List DialogEvent)
    (hfresh : findReq s s.nextId = none) :
    findReq (evs.foldl dialogStep
        (dialogStep (dialogStep s (.start p k)) (.timeout s.nextId))) s.nextId =
      some { reqId := s.nextId, projectName := p, key := k, isResolved := true,
             resolution := some timeoutResult, resolveCount := 1,
             timeoutActive := false, windowOpen := false } := by
  have hfind : s.requests.find? (fun r => r.reqId == s.nextId) = none := hfresh
  have h1 : findReq (startDialog s p k) s.nextId =
      some { reqId := s.nextId, projectName := p, key := k, isResolved := false,
             resolution := none, resolveCount := 0, timeoutActive := true,
             windowOpen := true } := by
    simp only [startDialog, findReq]
    rw [List.find?_append, hfind]
    simp
  have e1 : dialogStep (dialogStep s (.start p k)) (.timeout s.nextId) =
      updateReq (startDialog s p k) s.nextId (resolveMark timeoutResult) := by
    show timeoutFire (startDialog s p k) s.nextId = _
    rw [timeoutFire_eq _ _ _ h1 rfl, doResolve_unresolved_eq _ _ _ _ h1 rfl]
  have h2 : findReq (dialogStep (dialogStep s (.start p k)) (.timeout s.nextId)) s.nextId =
      some { reqId := s.nextId, projectName := p, key := k, isResolved := true,
             resolution := some timeoutResult, resolveCount := 1,
             timeoutActive := false, windowOpen := false } := by
    rw [e1]
    exact findReq_update_append s.requests
      { reqId := s.nextId, projectName := p, key := k, isResolved := false,
        resolution := none, resolveCount := 0, timeoutActive := true, windowOpen := true }
      s.nextId (resolveMark timeoutResult) (some s.nextId) (s.nextId + 1)
      hfind (by simp) (by simp [resolveMark])
  exact findReq_foldl_of_resolved evs _ s.nextId _ h2 rfl

/-- Witness for C5: the first request of a fresh system, timed out, then hit
by a stray approval reply that is ignored. -/
theorem approval_timeout_resolves_once_witness :
    findReq ([DialogEvent.reply true].foldl dialogStep
        (dialogStep (dialogStep initDialogSys (.start "myapp" "API_KEY"))
          (.timeout initDialogSys.nextId))) initDialogSys.nextId =
      some { reqId := initDialogSys.nextId, projectName := "myapp", key := "API_KEY",
             isResolved := true, resolution := some timeoutResult, resolveCount := 1,
             timeoutActive := false, windowOpen := false } :=
  approval_timeout_resolves_once initDialogSys "myapp" "API_KEY" [DialogEvent.reply true] rfl

/-! ## C1: concurrent approval requests -/

/-- C1 evaluation at the failing input.  Two showApprovalDialog calls arrive
while the first is pending: the second is accepted (both requests are
outstanding at once, violating the at-most-one invariant), the second call
removed the first listener, and a single user decision on the shared channel
resolves only the second request with approved true while the first stays
pending, silently taking over the decision. -/
theorem approval_concurrent_takeover :
    findReq (dialogStep (dialogStep initDialogSys (.start "projA" "keyA"))
        (.start "projB" "keyB")) 0 =
      some { reqId := 0, projectName := "projA", key := "keyA", isResolved := false,
             resolution := none, resolveCount := 0, timeoutActive := true,
             windowOpen := true } ∧
    findReq (dialogStep (dialogStep initDialogSys (.start "projA" "keyA"))
        (.start "projB" "keyB")) 1 =
      some { reqId := 1, projectName := "projB", key := "keyB", isResolved := false,
             resolution := none, resolveCount := 0, timeoutActive := true,
             windowOpen := true } ∧
    (dialogStep (dialogStep initDialogSys (.start "projA" "keyA"))
        (.start "projB" "keyB")).listener = some 1 ∧
    findReq (dialogStep (dialogStep (dialogStep initDialogSys (.start "projA" "keyA"))
        (.start "projB" "keyB")) (.reply true)) 1 =
      some { reqId := 1, projectName := "projB", key := "keyB", isResolved := true,
             resolution := some { approved := true, reason := none }, resolveCount := 1,
             timeoutActive := false, windowOpen := false } ∧
    findReq (dialogStep (dialogStep (dialogStep initDialogSys (.start "projA" "keyA"))
        (.start "projB" "keyB")) (.reply true)) 0 =
      some { reqId := 0, projectName := "projA", key := "keyA", isResolved := false,
             resolution := none, resolveCount := 0, timeoutActive := true,
             windowOpen := true } := by
  exact ⟨by decide, by decide, by decide, by decide, by decide⟩

end LocalKeys
